import Mathlib

/-!
Verification model of the LU-Toolbox-Standalone batch conversion tools.

The definitions below are a shallow embedding of `lu_batch.py` (the batch
orchestrator) and `lu_batch_driver.py` (the in-host pipeline driver).
Paths are modeled as strings over POSIX separators; `os.path.abspath` is
modeled as the identity on the already-absolute paths used by the modeled
runs.  Host state (the Blender `bpy` API, plugin operators, the filesystem)
is abstracted into explicit environment records so that every function of
the source becomes a total Lean function of its environment.
-/

/-- Decidable equality for `Except` results, so concrete runs of the
model can be evaluated inside proofs. -/
instance {ε α : Type} [DecidableEq ε] [DecidableEq α] : DecidableEq (Except ε α) := fun a b =>
  match a, b with
  | .ok x, .ok y =>
    if h : x = y then .isTrue (by rw [h]) else .isFalse (fun hh => by cases hh; exact h rfl)
  | .error x, .error y =>
    if h : x = y then .isTrue (by rw [h]) else .isFalse (fun hh => by cases hh; exact h rfl)
  | .ok _, .error _ => .isFalse (fun hh => by cases hh)
  | .error _, .ok _ => .isFalse (fun hh => by cases hh)

namespace LUBatch

/-! ## String and path helpers (mirroring `os.path` / `fnmatch` usage) -/

/-- Characters after the last slash (POSIX `os.path.basename` on a
character list). -/
def baseNameL (p : List Char) : List Char :=
  (p.reverse.takeWhile (fun c => c ≠ '/')).reverse

/-- POSIX `os.path.basename` on strings. -/
def baseName (p : String) : String := ⟨baseNameL p.data⟩

/-- The extension part of `os.path.splitext` applied to a basename: the
extension starts at the last dot, unless every character before that dot is
itself a dot (leading dots never start an extension, as in CPython's
`genericpath._splitext`).  The dot is included in the extension. -/
def extL (name : List Char) : List Char :=
  let rev := name.reverse
  let pre := rev.takeWhile (fun c => c ≠ '.')
  if pre.length = rev.length then []
  else if (rev.drop (pre.length + 1)).any (fun c => c ≠ '.') then '.' :: pre.reverse
  else []

/-- The stem part of `os.path.splitext` applied to a basename. -/
def stemL (name : List Char) : List Char :=
  name.take (name.length - (extL name).length)

/-- `os.path.splitext(p)[1]` for a full path: only the basename can carry
the extension. -/
def splitextExt (p : String) : String := ⟨extL (baseNameL p.data)⟩

/-- `os.path.splitext(p)[0]` for a full path: the path minus its extension. -/
def splitextRoot (p : String) : String :=
  ⟨p.data.take (p.data.length - (extL (baseNameL p.data)).length)⟩

/-- `os.path.join(a, b)` for a relative second component on POSIX: insert a
separator unless `a` already ends with one. -/
def pathJoin (a b : String) : String :=
  if a.data.getLast? = some '/' then a ++ b else a ++ "/" ++ b

/-- ASCII lowercasing, modeling `str.lower()` on the ASCII paths and
patterns the tools handle. -/
def lowerStr (s : String) : String := ⟨s.data.map Char.toLower⟩

/-- Helper for glob `*`: try a matcher on every suffix of the name. -/
def fnStar (f : List Char → Bool) : List Char → Bool
  | [] => f []
  | c :: cs => f (c :: cs) || fnStar f cs

/-- Shell-style glob matching on character lists (pattern first), modeling
`fnmatch.fnmatch` for patterns built from literals, `*` and `?` (the only
forms the orchestrator's `--pattern` globs use).  `*` matches any sequence
of characters, including separators, exactly as `fnmatch` does. -/
def fnmatchL : List Char → List Char → Bool
  | [], n => n.isEmpty
  | '*' :: qs, n => fnStar (fnmatchL qs) n
  | '?' :: qs, n =>
    match n with
    | [] => false
    | _ :: cs => fnmatchL qs cs
  | q :: qs, n =>
    match n with
    | [] => false
    | c :: cs => decide (c = q) && fnmatchL qs cs

/-- `fnmatch.fnmatch` on strings. -/
def fnmatchB (name pat : String) : Bool := fnmatchL pat.data name.data

/-- Whitespace for Python's `str.strip()` (the ASCII whitespace actually
occurring in pattern arguments). -/
def isSpaceChar (c : Char) : Bool := c = ' ' || c = '\t' || c = '\n' || c = '\r'

/-- Python `str.strip()` on a character list. -/
def trimL (l : List Char) : List Char :=
  ((l.dropWhile isSpaceChar).reverse.dropWhile isSpaceChar).reverse

/-- Python `str.split(";")` on a character list: splits at every
semicolon, keeping empty pieces. -/
def splitSemiL (acc : List Char) : List Char → List (List Char)
  | [] => [acc.reverse]
  | c :: cs => if c = ';' then acc.reverse :: splitSemiL [] cs else splitSemiL (c :: acc) cs

/-- Suffix test on character lists (`str.endswith`). -/
def endsWithL (s suf : List Char) : Bool :=
  decide (s.drop (s.length - suf.length) = suf)

/-! ## `lu_batch.py`: file discovery, output derivation, per-job logs -/

/-- The filesystem as the orchestrator observes it: `isFile` is
`os.path.isfile`; `walk` lists the `(dirpath, dirnames, filenames)` triples
`os.walk` yields, in yield order.  `os.walk` on a path that is not an
existing, readable directory yields nothing (its internal `OSError` is
swallowed by the default `onerror=None`), which is modeled as `walk`
returning the empty list there. -/
structure FileSystem where
  isFile : String → Bool
  walk : String → List (String × List String × List String)

/-- `[p.strip() for p in patterns.split(";") if p.strip()]` from
`find_files`. -/
def patList (patterns : String) : List String :=
  (((splitSemiL [] patterns.data).map (fun cs => (⟨trimL cs⟩ : String))).filter
    (fun p => p ≠ ""))

/-- `any(fnmatch.fnmatch(name.lower(), p.lower()) for p in pats)`. -/
def matchesAny (pats : List String) (name : String) : Bool :=
  pats.any (fun p => fnmatchB (lowerStr name) (lowerStr p))

/-- The collection loop of `find_files` over the walked triples: every
filename matching some pattern is joined onto its directory path. -/
def collectDir (pats : List String) :
    List (String × List String × List String) → List String
  | [] => []
  | e :: rest =>
    (e.2.2.filterMap (fun f =>
      if matchesAny pats f then some (pathJoin e.1 f) else none)) ++ collectDir pats rest

/-- `find_files` from `lu_batch.py`.  A single-file root is returned when
it matches some pattern or the pattern list is empty.  Otherwise the root
is walked: recursively over every yielded triple, or non-recursively over
`[next(os.walk(root))]` — where `next` on an empty walk raises
`StopIteration`, modeled as the `Except.error "StopIteration"` result. -/
def find_files (fs : FileSystem) (root patterns : String) (recursive : Bool) :
    Except String (List String) :=
  let pats := patList patterns
  if fs.isFile root then
    if matchesAny pats root || pats.isEmpty then .ok [root] else .ok []
  else
    if recursive then .ok (collectDir pats (fs.walk root))
    else
      match fs.walk root with
      | [] => .error "StopIteration"
      | e :: _ => .ok (collectDir pats [e])

/-- `derive_output` from `lu_batch.py`:
`os.path.join(out_root, splitext(basename(in_path))[0] + ".nif")`. -/
def derive_output (in_path out_root : String) : String :=
  pathJoin out_root ((⟨stemL (baseNameL in_path.data)⟩ : String) ++ ".nif")

/-- The log base name chosen by `run_one`: the derived output path itself
when `--output` is passed to the driver, else the output path with its
extension replaced by `.noexport`. -/
def log_base (out_path : String) (pass_output : Bool) : String :=
  if pass_output then out_path else splitextRoot out_path ++ ".noexport"

/-- The per-job log file path: the log base suffixed `.ok.log` on worker
success and `.err.log` otherwise. -/
def log_path (out_path : String) (pass_output success : Bool) : String :=
  log_base out_path pass_output ++ (if success then ".ok.log" else ".err.log")

/-- Result of one `run_one` worker invocation: success is decided by the
worker's exit code being zero, and exactly the one log file named by
`log_path` is written, unconditionally. -/
structure RunOneResult where
  success : Bool
  logsWritten : List String
  returncode : Nat
deriving DecidableEq, Repr

/-- The observable effect of `run_one` from `lu_batch.py`, given the
spawned worker's exit code. -/
def run_one (out_path : String) (pass_output : Bool) (returncode : Nat) : RunOneResult :=
  { success := returncode == 0
    logsWritten := [log_path out_path pass_output (returncode == 0)]
    returncode := returncode }

/-! ## `lu_batch_driver.py`: the pipeline stage machine -/

/-- The stages the driver's `main` enters, in source order. -/
inductive PStage where
  | deviceSetup
  | headlessPatch
  | importStage
  | processStage
  | bakeStage
  | exportStage
  | saveBlend
deriving DecidableEq, Repr

/-- Abstracted outcomes of the four fatal stages of one driver run; the
non-fatal phases (device setup, headless patching, the vertex-color
backstop, NifTools game tagging, the `.blend` save) never change control
flow and carry no outcome here. -/
structure StageEnv where
  importOk : Bool
  processOk : Bool
  bakeOk : Bool
  exportOk : Bool
deriving DecidableEq, Repr

/-- The driver `main` of `lu_batch_driver.py` after argument checks: the
process exit code together with the stages entered, in order.  Import
failure exits 2, process failure 3, bake failure 4, export failure 5; the
export stage runs only when an output path was supplied; success exits 0. -/
def driverRun (env : StageEnv) (hasOutput : Bool) : Nat × List PStage :=
  let pre := [PStage.deviceSetup, PStage.headlessPatch]
  if env.importOk = false then (2, pre ++ [PStage.importStage])
  else if env.processOk = false then (3, pre ++ [PStage.importStage, PStage.processStage])
  else if env.bakeOk = false then
    (4, pre ++ [PStage.importStage, PStage.processStage, PStage.bakeStage])
  else if hasOutput then
    if env.exportOk = false then
      (5, pre ++ [PStage.importStage, PStage.processStage, PStage.bakeStage, PStage.exportStage])
    else
      (0, pre ++ [PStage.importStage, PStage.processStage, PStage.bakeStage,
        PStage.exportStage, PStage.saveBlend])
  else
    (0, pre ++ [PStage.importStage, PStage.processStage, PStage.bakeStage, PStage.saveBlend])

/-! ## `lu_batch.py`: the orchestrator `main` -/

/-- One pool submission made by the orchestrator's `main`: the input file,
its derived output path, and the `pass_output` argument handed to
`run_one` (`none` models Python's `None`). -/
structure Submission where
  input : String
  output : String
  passOutput : Option Bool
deriving DecidableEq, Repr

/-- Truthiness of the `pass_output` argument as `run_one` evaluates it
(`if pass_output:` — `None` and `False` are both falsy). -/
def truthy : Option Bool → Bool
  | none => false
  | some b => b

/-- The parsed orchestrator arguments the model needs. -/
structure OrchArgs where
  input : String
  output : String
  pattern : String
  recursive : Bool
  noExport : Bool

/-- The exit code of the worker spawned for a submission: `run_one` passes
`--output` to the driver exactly when its `pass_output` argument is
truthy, and the driver exports exactly when it received `--output`. -/
def workerExit (senv : String → StageEnv) (s : Submission) : Nat :=
  (driverRun (senv s.input) (truthy s.passOutput)).1

/-- Aggregate outcome of one orchestrator run. -/
structure OrchRun where
  exitCode : Nat
  okCount : Nat
  failCount : Nat
  outDirCreated : Bool
  submitted : List Submission
deriving DecidableEq, Repr

/-- The orchestrator `main` of `lu_batch.py` after argument parsing, over
a filesystem and the per-file stage outcomes of the driver.  No matching
files exits 1 before the output directory is created.  Otherwise two
submission loops run: the first (lines 100–103 of the source, left behind
by the `# Fix flag name with hyphen:` edit) submits every file with
`pass_output=None` and then discards its futures list, and the second
submits every file again with the real `pass_output`; only the second
list's results are tallied.  All ok exits 0, otherwise 2. -/
def orchestrate (fs : FileSystem) (args : OrchArgs) (senv : String → StageEnv) :
    Except String OrchRun :=
  match find_files fs args.input args.pattern args.recursive with
  | .error e => .error e
  | .ok files =>
    if files.isEmpty then .ok ⟨1, 0, 0, false, []⟩
    else
      let batch1 := files.map (fun src =>
        (⟨src, derive_output src args.output, none⟩ : Submission))
      let passOut := !args.noExport
      let batch2 := files.map (fun src =>
        (⟨src, derive_output src args.output, some passOut⟩ : Submission))
      let codes := batch2.map (fun s => workerExit senv s)
      let okC := codes.countP (fun c => c == 0)
      let failC := codes.countP (fun c => !(c == 0))
      .ok ⟨if failC = 0 then 0 else 2, okC, failC, true, batch1 ++ batch2⟩

/-! ## `lu_batch_driver.py`: the import resolver `try_import_lxf` -/

/-- The host operator surface the resolver probes: `resolve` is the
`getattr(getattr(bpy.ops, mod), func)` lookup for an operator id, which
may raise; `call` is one invocation of a resolved operator with call
convention `attempt` (0: `filepath=`/LOD kwargs, 1: `path=`, 2:
`directory=`+`files=`) on a given source path, which may raise. -/
structure ImportEnv where
  resolve : String → Except String Unit
  call : String → Nat → String → Except String Unit

/-- The resolver's loop state: the invocations made (operator id, call
convention index) in order, the first invocation that completed without
raising (if any), and the `last_err` variable. -/
structure TryState where
  invoked : List (String × Nat)
  succeeded : Option (String × Nat)
  lastErr : Option String
deriving DecidableEq, Repr

/-- The three call conventions tried per operator, in source order. -/
def attemptIdxs : List Nat := [0, 1, 2]

/-- The inner `for call in attempts` loop: try each call convention until
one completes without raising; record every invocation and remember the
most recent error. -/
def attemptLoop (env : ImportEnv) (opId path : String) : TryState → List Nat → TryState
  | st, [] => st
  | st, i :: rest =>
    match env.call opId i path with
    | .ok _ => { st with invoked := st.invoked ++ [(opId, i)], succeeded := some (opId, i) }
    | .error e =>
      attemptLoop env opId path
        { st with invoked := st.invoked ++ [(opId, i)], lastErr := some e } rest

/-- The outer `for op_id in op_ids` loop: resolve each candidate (a failed
lookup only updates `last_err`), run its call conventions, and return at
the first success. -/
def opLoop (env : ImportEnv) (path : String) : TryState → List String → TryState
  | st, [] => st
  | st, op :: rest =>
    match env.resolve op with
    | .error e => opLoop env path { st with lastErr := some e } rest
    | .ok _ =>
      let st2 := attemptLoop env op path st attemptIdxs
      if st2.succeeded.isSome then st2 else opLoop env path st2 rest

/-- `os.path.splitext(path)[1].lower()`. -/
def extOf (p : String) : String := lowerStr (splitextExt p)

/-- The candidate operator list of `try_import_lxf`: an explicit override
first, then the format-specific pair. -/
def opIds (op_override : Option String) (ext : String) : List String :=
  op_override.toList ++
    (if ext = ".lxf" then ["import_scene.importldd", "import_scene.lxf"]
     else ["import_scene.importldd", "import_scene.lxfml"])

/-- The two candidates retried against the unpacked payload. -/
def archiveOpIds : List String := ["import_scene.importldd", "import_scene.lxfml"]

/-- The archive unpack step: `extract` is the combined
`mkdtemp`/`ZipFile`/`extractall` action, yielding the
`(dirpath, filenames)` walk of the temporary directory on success or the
raised error otherwise. -/
structure ArchiveEnv where
  extract : Except String (List (String × List String))

/-- The payload search inside the unpacked archive: the first file whose
lowercased name ends in `.lxfml`, in walk order, joined onto its
directory. -/
def findLxfml : List (String × List String) → Option String
  | [] => none
  | (dir, files) :: rest =>
    match files.find? (fun f => endsWithL (lowerStr f).data ".lxfml".data) with
    | some f => some (pathJoin dir f)
    | none => findLxfml rest

/-- How one `try_import_lxf` run ends: a successful import (direct or via
the unpacked archive), a propagated unpack exception, the
`RuntimeError("No .lxfml found inside .lxf")`, or the final
`RuntimeError` carrying `last_err`. -/
inductive ImportOutcome where
  | imported (opId : String) (attempt : Nat) (viaArchive : Bool)
  | archiveError (msg : String)
  | noLxfml
  | importFailed (lastErr : Option String)
deriving DecidableEq, Repr

/-- Everything observable about one `try_import_lxf` run: its outcome, the
final state of the direct candidate loop, the state of the archive retry
loop when it ran, and whether the temporary unpack directory was created
and removed (the `finally` block removes it on every path out of the
`try`). -/
structure ImportRun where
  outcome : ImportOutcome
  directState : TryState
  archiveState : Option TryState
  tempDirCreated : Bool
  tempDirRemoved : Bool
deriving DecidableEq, Repr

/-- `try_import_lxf` from `lu_batch_driver.py`.  Candidates are tried in
priority order with their call conventions; the first non-raising
invocation returns.  For a `.lxf` input whose direct candidates all fail,
the archive is unpacked into a temporary directory, the first `.lxfml`
payload is retried, and the `finally` clause removes the temporary
directory before the function returns or raises. -/
def try_import_lxf (env : ImportEnv) (aenv : ArchiveEnv) (path : String)
    (op_override : Option String) : ImportRun :=
  let ext := extOf path
  let st := opLoop env path ⟨[], none, none⟩ (opIds op_override ext)
  match st.succeeded with
  | some c => ⟨.imported c.1 c.2 false, st, none, false, false⟩
  | none =>
    if ext = ".lxf" then
      match aenv.extract with
      | .error m => ⟨.archiveError m, st, none, true, true⟩
      | .ok listing =>
        match findLxfml listing with
        | none => ⟨.noLxfml, st, none, true, true⟩
        | some payload =>
          let st2 := opLoop env payload st archiveOpIds
          match st2.succeeded with
          | some c => ⟨.imported c.1 c.2 true, st, some st2, true, true⟩
          | none => ⟨.importFailed st2.lastErr, st, some st2, true, true⟩
    else ⟨.importFailed st.lastErr, st, none, false, false⟩

/-! ### Specification-side views of the resolver used by the theorems -/

/-- Whether an invocation completes without raising. -/
def callOk (env : ImportEnv) (path : String) (c : String × Nat) : Bool :=
  match env.call c.1 c.2 path with
  | .ok _ => true
  | .error _ => false

/-- The invocations the resolver would make if nothing succeeded: for each
candidate that resolves, its three call conventions in order; candidates
that fail to resolve contribute none. -/
def plannedCalls (env : ImportEnv) : List String → List (String × Nat)
  | [] => []
  | op :: rest =>
    (match env.resolve op with
     | .ok _ => attemptIdxs.map (fun i => (op, i))
     | .error _ => []) ++ plannedCalls env rest

/-- The errors encountered, in order, when every invocation fails: a
failed lookup contributes its error, a resolved candidate the errors of
its three failing calls. -/
def allFailEvents (env : ImportEnv) (path : String) : List String → List String
  | [] => []
  | op :: rest =>
    (match env.resolve op with
     | .error e => [e]
     | .ok _ =>
       attemptIdxs.filterMap (fun i =>
         match env.call op i path with
         | .error e => some e
         | .ok _ => none)) ++ allFailEvents env path rest

/-- The last element of a list of errors, or a fallback: the value of an
imperative `last_err` variable overwritten by each event. -/
def lastOr (base : Option String) (l : List String) : Option String :=
  l.foldl (fun _ e => some e) base

/-- The prefix of a call list up to and including its first non-raising
invocation, together with that invocation. -/
def scanCalls (env : ImportEnv) (path : String) :
    List (String × Nat) → List (String × Nat) × Option (String × Nat)
  | [] => ([], none)
  | c :: cs =>
    if callOk env path c then ([c], some c)
    else
      let r := scanCalls env path cs
      (c :: r.1, r.2)

/-! ## `lu_batch_driver.py`: the headless capability patcher -/

/-- One class found in `dir()` of the plugin module: whether it is an
operator subclass, and its attributes as (name, callable) pairs. -/
structure PluginClass where
  isOperator : Bool
  methods : List (String × Bool)
deriving DecidableEq, Repr

/-- What `_apply_headless_patches` observes: whether
`lu_toolbox.process_model` imports, and the classes it enumerates. -/
structure PatchEnv where
  importOk : Bool
  classes : List PluginClass
deriving DecidableEq, Repr

/-- The fixed method allow-list of `_apply_headless_patches`. -/
def targetMethods : List String :=
  ["apply_vertex_colors", "set_viewport_to_vertex_color", "ensure_viewport_settings"]

/-- `_wrap_ctx_method`: succeeds (returns `True`) exactly when the class
has the attribute and it is callable. -/
def wrapCtxMethod (cls : PluginClass) (m : String) : Bool :=
  cls.methods.any (fun e => e.1 == m && e.2)

/-- `_apply_headless_patches` from `lu_batch_driver.py`: if the plugin
module cannot be imported the error is logged and `patched` (still
`False`) is returned; otherwise `patched` is folded over every operator
class and target method, becoming `True` at each successful wrap.  The
function returns this Boolean flag. -/
def applyHeadlessPatches (env : PatchEnv) : Bool :=
  if env.importOk = false then false
  else
    env.classes.foldl (fun patched cls =>
      if cls.isOperator then
        targetMethods.foldl (fun p m => if wrapCtxMethod cls m then true else p) patched
      else patched) false

/-- The number of `(class, method)` pairs `_apply_headless_patches`
actually wraps: what a `count_of_methods_patched` return value would be. -/
def countPatched (env : PatchEnv) : Nat :=
  if env.importOk = false then 0
  else
    (env.classes.map (fun cls =>
      if cls.isOperator then targetMethods.countP (fun m => wrapCtxMethod cls m)
      else 0)).sum

/-! ## `lu_batch_driver.py`: the device selector -/

/-- One entry of the Cycles preferences device list. -/
structure CyclesDevice where
  dtype : String
  use : Bool
deriving DecidableEq, Repr

/-- What the device functions observe of the host: whether the Cycles
addon is available, whether assigning `compute_device_type` succeeds, and
the enumerated device list. -/
structure DeviceEnv where
  cyclesAvailable : Bool
  backendSetOk : Bool
  devices : List CyclesDevice
deriving DecidableEq, Repr

/-- The backend family `set_cycles_device_forced` asks for. -/
def backendFor (want : String) : String :=
  if want = "cpu" then "NONE" else if want = "cuda" then "CUDA" else "OPTIX"

/-- Result of `set_cycles_device_forced`: the returned effective device,
the `scene.cycles.device` assignment, and the device list after the
`d.use` mutations. -/
structure ForcedResult where
  effective : String
  sceneDevice : String
  devices : List CyclesDevice
deriving DecidableEq, Repr

/-- The `d.use` mutation loop of `set_cycles_device_forced`: every device
of the requested GPU backend and every CPU device is marked in use. -/
def forcedDevices (backend : String) (ds : List CyclesDevice) : List CyclesDevice :=
  ds.map (fun d =>
    if (backend = "CUDA" || backend = "OPTIX") && d.dtype == backend then { d with use := true }
    else if d.dtype = "CPU" then { d with use := true }
    else d)

/-- `set_cycles_device_forced` from `lu_batch_driver.py`: resolve the
requested backend (a failed `compute_device_type` assignment falls back to
`NONE`), mark devices in use, and downgrade to `cpu` when a GPU backend
was requested but no device of that backend exists. -/
def set_cycles_device_forced (env : DeviceEnv) (device : String) : ForcedResult :=
  let want := if device = "" then "cpu" else lowerStr device
  if env.cyclesAvailable = false then ⟨"cpu", "CPU", env.devices⟩
  else
    let backend := if env.backendSetOk then backendFor want else "NONE"
    let ds := forcedDevices backend env.devices
    let foundGpu := (backend = "CUDA" || backend = "OPTIX") &&
      env.devices.any (fun d => d.dtype == backend)
    if (backend = "CUDA" || backend = "OPTIX") && !foundGpu then ⟨"cpu", "CPU", ds⟩
    else if backend = "NONE" then ⟨"cpu", "CPU", ds⟩
    else ⟨want, "GPU", ds⟩

/-- `set_cycles_device_auto` from `lu_batch_driver.py`: trust the saved
preferences, prefer OptiX over CUDA over CPU, never toggling `d.use`. -/
def set_cycles_device_auto (env : DeviceEnv) : String :=
  if env.cyclesAvailable = false then "cpu"
  else
    let anyOptix := env.devices.any (fun d => d.dtype == "OPTIX" && d.use)
    let anyCuda := env.devices.any (fun d => d.dtype == "CUDA" && d.use)
    if anyOptix || anyCuda then (if anyOptix then "optix" else "cuda") else "cpu"

/-- `set_lu_gpu_flags`: both plugin-visible flags
(`lutb_process_use_gpu`, `lutb_bake_use_gpu`) receive the same value. -/
def set_lu_gpu_flags (use_gpu : Bool) : Bool × Bool := (use_gpu, use_gpu)

/-- The device policy lines of the driver `main`: pick auto or forced
selection, then broadcast `actual != 'cpu'` to the two GPU flags. -/
def devicePhase (env : DeviceEnv) (deviceArg : String) : String × Bool × Bool :=
  let actual :=
    if deviceArg = "auto" then set_cycles_device_auto env
    else (set_cycles_device_forced env deviceArg).effective
  (actual, set_lu_gpu_flags (actual != "cpu"))

/-! ## Concrete instances used to evaluate the model -/

/-- Per-file stage outcomes in which every stage succeeds. -/
def senvAllOk : String → StageEnv := fun _ => ⟨true, true, true, true⟩

/-- A directory holding exactly one matching input file. -/
def fsSingle : FileSystem :=
  { isFile := fun _ => false
    walk := fun r => if r == "/in" then [("/in", [], ["a.lxf"])] else [] }

/-- An orchestrator invocation over that directory. -/
def argsSingle : OrchArgs := ⟨"/in", "/out", "*.lxf", false, false⟩

/-- The run the orchestrator model produces on `fsSingle`/`argsSingle`:
the single file is submitted twice, once by each submission loop. -/
def runSingle : OrchRun :=
  ⟨0, 1, 0, true,
    [⟨"/in/a.lxf", "/out/a.nif", none⟩, ⟨"/in/a.lxf", "/out/a.nif", some true⟩]⟩

/-- A filesystem on which the input root is neither an existing file nor
an existing directory. -/
def fsMissing : FileSystem := ⟨fun _ => false, fun _ => []⟩

/-- A non-recursive orchestrator invocation over the missing root. -/
def argsMissingNonrec : OrchArgs := ⟨"/gone", "/out", "*.lxf", false, false⟩

/-- A recursive orchestrator invocation over the missing root. -/
def argsMissingRec : OrchArgs := ⟨"/gone", "/out", "*.lxf", true, false⟩

/-- Two subdirectories each holding an input file with the same stem. -/
def fsSharedStem : FileSystem :=
  { isFile := fun _ => false
    walk := fun r =>
      if r == "/in" then
        [("/in", ["d1", "d2"], []), ("/in/d1", [], ["a.lxf"]), ("/in/d2", [], ["a.lxf"])]
      else [] }

/-- A plugin module exposing one operator class with two wrappable target
methods. -/
def envPatchTwo : PatchEnv :=
  ⟨true, [⟨true, [("apply_vertex_colors", true), ("set_viewport_to_vertex_color", true)]⟩]⟩

/-- The patch environment in which `lu_toolbox.process_model` fails to
import. -/
def envPatchMissing : PatchEnv := ⟨false, [⟨true, [("apply_vertex_colors", true)]⟩]⟩

/-- An import environment in which every candidate resolves, the first
two invocations raise and the third completes. -/
def envImpThree : ImportEnv :=
  { resolve := fun _ => .ok ()
    call := fun op i _ =>
      if op == "import_scene.importldd" && i == 2 then .ok ()
      else .error ("attempt " ++ toString i ++ " raised") }

/-- An import environment in which every direct invocation raises and the
first retry against the unpacked payload completes. -/
def envImpFallback : ImportEnv :=
  { resolve := fun _ => .ok ()
    call := fun op i p =>
      if p == "/tmpu/p.lxfml" && op == "import_scene.importldd" && i == 0 then .ok ()
      else .error ("raised " ++ op ++ " " ++ toString i) }

/-- An archive whose unpacked tree holds one `.lxfml` payload. -/
def aenvPayload : ArchiveEnv := ⟨.ok [("/tmpu", ["p.lxfml"])]⟩

/-- A host enumerating a CPU device but no CUDA device. -/
def envDevNoCuda : DeviceEnv := ⟨true, true, [⟨"CPU", false⟩]⟩

end LUBatch

namespace LUBatch

/-! ## General helper lemmas -/

theorem data_append (a b : String) : (a ++ b).data = a.data ++ b.data := rfl

theorem str_eq_of_data {a b : String} (h : a.data = b.data) : a = b := String.ext h

/-! ## C2: pipeline stage exit codes -/

/-- C2: in the pipeline driver, a fatal failure of the Import, Process,
Bake, or Export stage terminates the run immediately with exit code 2, 3,
4, or 5 respectively; in particular, when Bake fails the run exits with
code 4 and the Export stage is never entered. -/
theorem c2_stage_exit_codes (env : StageEnv) (hasOutput : Bool) :
    (env.importOk = false →
      (driverRun env hasOutput).1 = 2 ∧
      PStage.processStage ∉ (driverRun env hasOutput).2 ∧
      PStage.bakeStage ∉ (driverRun env hasOutput).2 ∧
      PStage.exportStage ∉ (driverRun env hasOutput).2) ∧
    (env.importOk = true → env.processOk = false →
      (driverRun env hasOutput).1 = 3 ∧
      PStage.bakeStage ∉ (driverRun env hasOutput).2 ∧
      PStage.exportStage ∉ (driverRun env hasOutput).2) ∧
    (env.importOk = true → env.processOk = true → env.bakeOk = false →
      (driverRun env hasOutput).1 = 4 ∧
      PStage.exportStage ∉ (driverRun env hasOutput).2) ∧
    (env.importOk = true → env.processOk = true → env.bakeOk = true → hasOutput = true →
      env.exportOk = false → (driverRun env hasOutput).1 = 5) := by
  obtain ⟨i, p, b, e⟩ := env
  cases i <;> cases p <;> cases b <;> cases e <;> cases hasOutput <;>
    exact ⟨by decide, by decide, by decide, by decide⟩

/-- Witness for C2: a run whose Bake stage is forced to fail exits with
code 4 without entering Export. -/
theorem c2_stage_exit_codes_witness :
    (driverRun ⟨true, true, false, true⟩ true).1 = 4 ∧
    PStage.exportStage ∉ (driverRun ⟨true, true, false, true⟩ true).2 :=
  (c2_stage_exit_codes ⟨true, true, false, true⟩ true).2.2.1 rfl rfl rfl

/-! ## C1: each matched file is submitted twice, not once -/

/-- C1 (divergence witness): on a run with a single matched input file,
the orchestrator submits two worker invocations for that file — the dead
pre-fix loop of `lu_batch.py` lines 99–103 submits every file with
`pass_output=None` and only its futures list is discarded, after which the
corrected loop submits every file again. -/
theorem c1_each_file_submitted_twice :
    orchestrate fsSingle argsSingle senvAllOk = Except.ok runSingle ∧
    runSingle.submitted.countP (fun s => s.input == "/in/a.lxf") = 2 := by
  exact ⟨by decide, by decide⟩

/-! ## C10: discovery on a root that is neither file nor directory -/

/-- C10 (amended): when the input root is neither an existing regular
file nor an existing directory, non-recursive discovery (the default)
raises `StopIteration` from `next(os.walk(root))`, so the orchestrator
crashes instead of printing the no-matches diagnostic; with `--recursive`
the walk yields nothing, discovery returns the empty list, and the
orchestrator exits with status 1. -/
theorem c10_missing_root_discovery (fs : FileSystem) (root pats : String)
    (args : OrchArgs) (senv : String → StageEnv)
    (h1 : fs.isFile root = false) (h2 : fs.walk root = []) (ha : args.input = root) :
    find_files fs root pats false = Except.error "StopIteration" ∧
    find_files fs root pats true = Except.ok [] ∧
    (args.recursive = false → orchestrate fs args senv = Except.error "StopIteration") ∧
    (args.recursive = true → orchestrate fs args senv = Except.ok ⟨1, 0, 0, false, []⟩) := by
  refine ⟨by simp [find_files, h1, h2], by simp [find_files, h1, h2, collectDir], ?_, ?_⟩
  · intro hrec
    simp [orchestrate, find_files, ha, h1, h2, hrec]
  · intro hrec
    simp [orchestrate, find_files, ha, h1, h2, hrec, collectDir]

/-- Counterexample for C10 as stated: with `--recursive`, discovery on a
nonexistent root does not raise — it returns the empty list, and the
orchestrator prints the no-matches diagnostic and exits 1. -/
theorem c10_counterexample_recursive_empty :
    find_files fsMissing "/gone" "*.lxf" true = Except.ok [] ∧
    orchestrate fsMissing argsMissingRec senvAllOk = Except.ok ⟨1, 0, 0, false, []⟩ := by
  exact ⟨by decide, by decide⟩

/-- Witness for C10 (amended): the non-recursive default crashes on a
missing root. -/
theorem c10_missing_root_discovery_witness :
    find_files fsMissing "/gone" "*.lxf" false = Except.error "StopIteration" ∧
    orchestrate fsMissing argsMissingNonrec senvAllOk = Except.error "StopIteration" :=
  ⟨(c10_missing_root_discovery fsMissing "/gone" "*.lxf" argsMissingNonrec senvAllOk
      rfl rfl rfl).1,
   (c10_missing_root_discovery fsMissing "/gone" "*.lxf" argsMissingNonrec senvAllOk
      rfl rfl rfl).2.2.1 rfl⟩

/-! ## C5: the headless patcher returns a flag, not a count -/

theorem foldl_if_true_eq_or_any {α : Type} (g : α → Bool) :
    ∀ (l : List α) (acc : Bool),
      l.foldl (fun p m => if g m then true else p) acc = (acc || l.any g) := by
  intro l
  induction l with
  | nil => intro acc; simp
  | cons a l ih =>
    intro acc
    simp only [List.foldl_cons, List.any_cons]
    cases h : g a
    · rw [if_neg (by decide : ¬(false = true)), ih]
      simp
    · rw [if_pos rfl, ih]
      simp

theorem patchFold_eq_any :
    ∀ (cs : List PluginClass) (acc : Bool),
      cs.foldl (fun patched cls =>
        if cls.isOperator then
          targetMethods.foldl (fun p m => if wrapCtxMethod cls m then true else p) patched
        else patched) acc
      = (acc || cs.any (fun cls =>
          cls.isOperator && targetMethods.any (fun m => wrapCtxMethod cls m))) := by
  intro cs
  induction cs with
  | nil => intro acc; simp
  | cons c cs ih =>
    intro acc
    simp only [List.foldl_cons, List.any_cons]
    cases hop : c.isOperator
    · rw [if_neg (by decide : ¬(false = true)), ih]
      simp
    · rw [if_pos rfl, foldl_if_true_eq_or_any, ih]
      simp [Bool.or_assoc]

theorem applyHeadlessPatches_eq_any (env : PatchEnv) (h : env.importOk = true) :
    applyHeadlessPatches env
      = env.classes.any (fun cls =>
          cls.isOperator && targetMethods.any (fun m => wrapCtxMethod cls m)) := by
  unfold applyHeadlessPatches
  rw [h]
  simpa using patchFold_eq_any env.classes false

theorem countPatched_pos_iff (env : PatchEnv) (h : env.importOk = true) :
    (0 < countPatched env) ↔
      env.classes.any (fun cls =>
        cls.isOperator && targetMethods.any (fun m => wrapCtxMethod cls m)) = true := by
  unfold countPatched
  rw [h]
  simp only [Bool.true_eq_false, if_false, Nat.pos_iff_ne_zero, ne_eq,
    List.sum_eq_zero_iff, List.mem_map, List.any_eq_true]
  constructor
  · intro hne
    by_contra hex
    apply hne
    intro x hx
    obtain ⟨cls, hcls, rfl⟩ := hx
    by_cases hop : cls.isOperator = true
    · rw [if_pos hop]
      by_contra hcp
      exact hex ⟨cls, hcls, by
        refine (Bool.and_eq_true _ _).mpr ⟨hop, ?_⟩
        rw [List.any_eq_true]
        exact List.countP_pos_iff.mp (Nat.pos_of_ne_zero hcp)⟩
    · rw [if_neg hop]
  · rintro ⟨cls, hcls, hca⟩ hall
    obtain ⟨hop, hany⟩ := (Bool.and_eq_true _ _).mp hca
    have hz := hall (if cls.isOperator = true then
      targetMethods.countP (fun m => wrapCtxMethod cls m) else 0) ⟨cls, hcls, rfl⟩
    rw [if_pos hop] at hz
    obtain ⟨m, hm, hw⟩ := List.any_eq_true.mp hany
    have hpos : 0 < targetMethods.countP (fun m => wrapCtxMethod cls m) :=
      List.countP_pos_iff.mpr ⟨m, hm, hw⟩
    omega

/-- C5 (amended): `_apply_headless_patches` returns a Boolean flag that
is true exactly when at least one method was patched (not the number of
patched methods); when the plugin module cannot be located it returns
`False` — zero methods patched — and never raises (the import error is
caught and logged). -/
theorem c5_patcher_returns_flag (env : PatchEnv) :
    (applyHeadlessPatches env = true ↔ 0 < countPatched env) ∧
    (env.importOk = false → applyHeadlessPatches env = false ∧ countPatched env = 0) := by
  constructor
  · cases h : env.importOk
    · simp [applyHeadlessPatches, countPatched, h]
    · rw [applyHeadlessPatches_eq_any env h, countPatched_pos_iff env h]
  · intro h
    simp [applyHeadlessPatches, countPatched, h]

/-- Counterexample for C5 as stated: a plugin module with one operator
class carrying two wrappable target methods yields two patched methods,
but `_apply_headless_patches` returns the Boolean `True` — numerically 1,
not the count 2. -/
theorem c5_counterexample_bool_not_count :
    countPatched envPatchTwo = 2 ∧
    applyHeadlessPatches envPatchTwo = true ∧
    (if applyHeadlessPatches envPatchTwo then 1 else 0) ≠ countPatched envPatchTwo := by
  exact ⟨by decide, by decide, by decide⟩

/-- Witness for C5 (amended): a failed plugin import returns `False` with
zero patched methods. -/
theorem c5_patcher_returns_flag_witness :
    applyHeadlessPatches envPatchMissing = false ∧ countPatched envPatchMissing = 0 :=
  (c5_patcher_returns_flag envPatchMissing).2 rfl

/-! ## C7: GPU downgrade and flag broadcast -/

/-- C7: when an explicit GPU device (`cuda` or `optix`) is requested and
the host enumerates zero devices of that backend, the selector downgrades
to effective device `cpu`; and in every branch both plugin-visible GPU
flags are set to `effective != cpu` — in the downgrade case both are
false. -/
theorem c7_gpu_downgrade_flags (env : DeviceEnv) (req : String) :
    ((req = "cuda" ∨ req = "optix") →
      (∀ d ∈ env.devices, d.dtype ≠ backendFor req) →
      (set_cycles_device_forced env req).effective = "cpu" ∧
      devicePhase env req = ("cpu", false, false)) ∧
    ((devicePhase env req).2.1 = ((devicePhase env req).1 != "cpu") ∧
     (devicePhase env req).2.2 = (devicePhase env req).2.1) := by
  constructor
  · rintro (rfl | rfl) hdev
    · have hl : lowerStr "cuda" = "cuda" := by decide
      have hdev2 : ∀ d ∈ env.devices, ¬ d.dtype = "CUDA" := by
        intro d hd
        simpa [backendFor] using hdev d hd
      cases hca : env.cyclesAvailable
      · constructor <;>
          simp [set_cycles_device_forced, devicePhase, set_lu_gpu_flags, hca, hl]
      · cases hbs : env.backendSetOk
        · constructor <;>
            simp [set_cycles_device_forced, devicePhase, set_lu_gpu_flags, hca, hbs,
              backendFor, hl]
        · constructor
          · simp [set_cycles_device_forced, hca, hbs, backendFor, hl]
            rw [if_pos hdev2]
          · simp [devicePhase, set_cycles_device_forced, set_lu_gpu_flags, hca, hbs,
              backendFor, hl]
            rw [if_pos hdev2]
    · have hl : lowerStr "optix" = "optix" := by decide
      have hdev2 : ∀ d ∈ env.devices, ¬ d.dtype = "OPTIX" := by
        intro d hd
        simpa [backendFor] using hdev d hd
      cases hca : env.cyclesAvailable
      · constructor <;>
          simp [set_cycles_device_forced, devicePhase, set_lu_gpu_flags, hca, hl]
      · cases hbs : env.backendSetOk
        · constructor <;>
            simp [set_cycles_device_forced, devicePhase, set_lu_gpu_flags, hca, hbs,
              backendFor, hl]
        · constructor
          · simp [set_cycles_device_forced, hca, hbs, backendFor, hl]
            rw [if_pos hdev2]
          · simp [devicePhase, set_cycles_device_forced, set_lu_gpu_flags, hca, hbs,
              backendFor, hl]
            rw [if_pos hdev2]
  · exact ⟨by simp [devicePhase, set_lu_gpu_flags], by simp [devicePhase, set_lu_gpu_flags]⟩

/-- Witness for C7: requesting `cuda` on a host with only a CPU device
downgrades to `cpu` with both GPU flags false. -/
theorem c7_gpu_downgrade_flags_witness :
    (set_cycles_device_forced envDevNoCuda "cuda").effective = "cpu" ∧
    devicePhase envDevNoCuda "cuda" = ("cpu", false, false) :=
  (c7_gpu_downgrade_flags envDevNoCuda "cuda").1 (Or.inl rfl) (by decide)

/-! ## Path-derivation helper lemmas for C6 and C8 -/

theorem data_mk (l : List Char) : (⟨l⟩ : String).data = l := rfl

theorem takeWhile_append_all (p : Char → Bool) :
    ∀ (l r : List Char), (∀ c ∈ l, p c = true) → (l ++ r).takeWhile p = l ++ r.takeWhile p := by
  intro l
  induction l with
  | nil => intro r _; simp
  | cons a l ih =>
    intro r h
    have ha : p a = true := h a (by simp)
    simp [List.takeWhile_cons, ha, ih r (fun c hc => h c (by simp [hc]))]

theorem baseNameL_no_slash (l : List Char) : ∀ c ∈ baseNameL l, c ≠ '/' := by
  intro c hc
  unfold baseNameL at hc
  rw [List.mem_reverse] at hc
  simpa using List.mem_takeWhile_imp hc

theorem baseNameL_append (z nm : List Char) (h : ∀ c ∈ nm, c ≠ '/') :
    baseNameL (z ++ '/' :: nm) = nm := by
  unfold baseNameL
  rw [List.reverse_append]
  rw [show ('/' :: nm).reverse = nm.reverse ++ ['/'] by simp]
  rw [List.append_assoc]
  rw [takeWhile_append_all _ _ _ (fun c hc => by
    simpa using h c (List.mem_reverse.mp hc))]
  simp [List.takeWhile_cons]

theorem getLast?_concat_exists {l : List Char} {c : Char} (h : l.getLast? = some c) :
    ∃ t, l = t ++ [c] := by
  rcases l.eq_nil_or_concat with rfl | ⟨t, d, rfl⟩
  · simp at h
  · rw [List.concat_eq_append, List.getLast?_append] at h
    simp at h
    exact ⟨t, by rw [h, List.concat_eq_append]⟩

theorem baseNameL_pathJoin (a : String) (nm : List Char) (h : ∀ c ∈ nm, c ≠ '/') :
    baseNameL (pathJoin a ⟨nm⟩).data = nm := by
  unfold pathJoin
  by_cases hc : a.data.getLast? = some '/'
  · rw [if_pos hc]
    obtain ⟨t, ht⟩ := getLast?_concat_exists hc
    have hdata : (a ++ (⟨nm⟩ : String)).data = t ++ '/' :: nm := by
      rw [data_append, ht]
      simp
    rw [hdata]
    exact baseNameL_append t nm h
  · rw [if_neg hc]
    have hdata : ((a ++ "/") ++ (⟨nm⟩ : String)).data = a.data ++ '/' :: nm := by
      rw [data_append, data_append]
      simp
    rw [hdata]
    exact baseNameL_append a.data nm h

theorem stem_no_slash (p : String) : ∀ c ∈ stemL (baseNameL p.data), c ≠ '/' := by
  intro c hc
  unfold stemL at hc
  exact baseNameL_no_slash p.data c (List.mem_of_mem_take hc)

theorem baseName_derive (p out : String) :
    baseNameL (derive_output p out).data = stemL (baseNameL p.data) ++ ".nif".data := by
  unfold derive_output
  have hmk : ((⟨stemL (baseNameL p.data)⟩ : String) ++ ".nif")
      = (⟨stemL (baseNameL p.data) ++ ".nif".data⟩ : String) := rfl
  rw [hmk]
  apply baseNameL_pathJoin
  intro c hc
  rw [List.mem_append] at hc
  rcases hc with hc | hc
  · exact stem_no_slash p c hc
  · have hnif : ∀ c ∈ ".nif".data, c ≠ '/' := by decide
    exact hnif c hc

theorem extL_stem_nif (s : List Char) :
    extL (s ++ ".nif".data) = if s.any (fun c => c ≠ '.') then ".nif".data else [] := by
  simp only [extL]
  rw [show (s ++ ".nif".data).reverse = ['f','i','n','.'] ++ s.reverse by
    rw [List.reverse_append]; rfl]
  rw [show List.takeWhile (fun c => decide (c ≠ '.')) (['f','i','n','.'] ++ s.reverse)
      = ['f','i','n'] by simp [List.takeWhile_cons]]
  rw [show (['f','i','n'] : List Char).length = 3 from rfl]
  rw [if_neg (by simp [List.length_append])]
  rw [show (3 + 1) = (['f','i','n','.'] : List Char).length from rfl, List.drop_left]
  rw [List.any_reverse]
  rfl

theorem extLen_derive (p out : String) :
    (extL (baseNameL (derive_output p out).data)).length = 0 ∨
    (extL (baseNameL (derive_output p out).data)).length = 4 := by
  rw [baseName_derive, extL_stem_nif]
  by_cases h : (stemL (baseNameL p.data)).any (fun c => c ≠ '.') = true
  · right
    rw [if_pos h]
    decide
  · left
    rw [if_neg h]
    rfl

theorem splitextRoot_length (p : String) :
    (splitextRoot p).data.length
      = p.data.length - (extL (baseNameL p.data)).length := by
  show (p.data.take (p.data.length - (extL (baseNameL p.data)).length)).length = _
  rw [List.length_take]
  exact Nat.min_eq_left (Nat.sub_le _ _)

/-! ## C6: output paths collide exactly when input stems collide -/

/-- C6 (amended): for two discovered input files whose basename stems
differ, the derived output paths differ, and so do the adjacent
export-run log paths; when two inputs in different subdirectories share
the same stem — possible under recursive discovery — the derived outputs
coincide (see the counterexample). -/
theorem c6_distinct_stems_distinct_outputs (p1 p2 out : String)
    (h : stemL (baseNameL p1.data) ≠ stemL (baseNameL p2.data)) :
    derive_output p1 out ≠ derive_output p2 out ∧
    (∀ s : Bool, log_path (derive_output p1 out) true s
      ≠ log_path (derive_output p2 out) true s) := by
  have hne : derive_output p1 out ≠ derive_output p2 out := by
    intro heq
    apply h
    have hd := congrArg String.data heq
    unfold derive_output pathJoin at hd
    by_cases hc : out.data.getLast? = some '/'
    · rw [if_pos hc, if_pos hc] at hd
      simp only [data_append, data_mk] at hd
      have h2 := List.append_cancel_left hd
      exact List.append_cancel_right h2
    · rw [if_neg hc, if_neg hc] at hd
      simp only [data_append, data_mk] at hd
      have h2 := List.append_cancel_left hd
      exact List.append_cancel_right h2
  refine ⟨hne, ?_⟩
  intro s heq
  apply hne
  apply str_eq_of_data
  have hd := congrArg String.data heq
  rw [show log_path (derive_output p1 out) true s
      = derive_output p1 out ++ (if s then ".ok.log" else ".err.log") from rfl,
    show log_path (derive_output p2 out) true s
      = derive_output p2 out ++ (if s then ".ok.log" else ".err.log") from rfl,
    data_append, data_append] at hd
  exact List.append_cancel_right hd

/-- Counterexample for C6 as stated: recursive discovery can return two
distinct input files in different subdirectories with the same stem, and
their derived output paths (hence log paths) coincide. -/
theorem c6_counterexample_shared_stem :
    ("/in/d1/a.lxf" : String) ≠ "/in/d2/a.lxf" ∧
    find_files fsSharedStem "/in" "*.lxf" true
      = Except.ok ["/in/d1/a.lxf", "/in/d2/a.lxf"] ∧
    derive_output "/in/d1/a.lxf" "/out" = derive_output "/in/d2/a.lxf" "/out" := by
  exact ⟨by decide, by decide, by decide⟩

/-- Witness for C6 (amended): two inputs with distinct stems derive
distinct outputs. -/
theorem c6_distinct_stems_distinct_outputs_witness :
    derive_output "/in/x.lxf" "/out" ≠ derive_output "/in/y.lxf" "/out" :=
  (c6_distinct_stems_distinct_outputs "/in/x.lxf" "/in/y.lxf" "/out" (by decide)).1

/-! ## C8: the per-job log -/

/-- C8: `run_one` writes exactly one log file unconditionally, suffixed
`.ok.log` when the worker exit code is 0 and `.err.log` otherwise — the
two names never coincide; and the no-export log base differs from the
export log base, so a no-export run's log path never collides with an
export run's log path for the same derived output. -/
theorem c8_job_log (in_path out_root : String) (po : Bool) (code : Nat) :
    (run_one (derive_output in_path out_root) po code).logsWritten
        = [log_path (derive_output in_path out_root) po (code == 0)] ∧
    (code = 0 → (run_one (derive_output in_path out_root) po code).logsWritten
        = [log_base (derive_output in_path out_root) po ++ ".ok.log"]) ∧
    (code ≠ 0 → (run_one (derive_output in_path out_root) po code).logsWritten
        = [log_base (derive_output in_path out_root) po ++ ".err.log"]) ∧
    log_path (derive_output in_path out_root) po true
        ≠ log_path (derive_output in_path out_root) po false ∧
    (∀ s1 s2 : Bool, log_path (derive_output in_path out_root) false s1
        ≠ log_path (derive_output in_path out_root) true s2) := by
  refine ⟨rfl, ?_, ?_, ?_, ?_⟩
  · intro h
    subst h
    rfl
  · intro h
    have hb : (code == 0) = false := by
      rw [beq_eq_false_iff_ne]
      exact h
    simp [run_one, log_path, hb]
  · intro heq
    have hd := congrArg String.data heq
    rw [show log_path (derive_output in_path out_root) po true
        = log_base (derive_output in_path out_root) po ++ ".ok.log" from rfl,
      show log_path (derive_output in_path out_root) po false
        = log_base (derive_output in_path out_root) po ++ ".err.log" from rfl,
      data_append, data_append] at hd
    have h2 := List.append_cancel_left hd
    exact absurd h2 (by decide)
  · intro s1 s2 heq
    have hlen := congrArg (fun x : String => x.data.length) heq
    cases s1 <;> cases s2 <;>
    · simp only [log_path, log_base, if_true, if_false, Bool.false_eq_true, if_neg,
        data_append, List.length_append] at hlen
      rw [splitextRoot_length] at hlen
      rcases extLen_derive in_path out_root with hE | hE <;>
        rw [hE] at hlen <;>
        simp only [show (".noexport".data).length = 9 from rfl,
          show (".ok.log".data).length = 7 from rfl,
          show (".err.log".data).length = 8 from rfl] at hlen <;>
        omega

/-- Witness for C8: a failed no-export worker run writes exactly the one
`.err.log` next to the no-export base, and that path can never equal an
export-run log path. -/
theorem c8_job_log_witness :
    (run_one (derive_output "/in/a.lxf" "/out") false 3).logsWritten
        = [log_base (derive_output "/in/a.lxf" "/out") false ++ ".err.log"] ∧
    log_path (derive_output "/in/a.lxf" "/out") false true
        ≠ log_path (derive_output "/in/a.lxf" "/out") true true :=
  ⟨(c8_job_log "/in/a.lxf" "/out" false 3).2.2.1 (by decide),
   (c8_job_log "/in/a.lxf" "/out" false 3).2.2.2.2 true true⟩

/-! ## Import resolver lemmas for C3 and C4 -/

theorem scan_all_fail (env : ImportEnv) (path : String) :
    ∀ l, (∀ c ∈ l, callOk env path c = false) → scanCalls env path l = (l, none) := by
  intro l
  induction l with
  | nil => intro _; rfl
  | cons c cs ih =>
    intro h
    have hc : callOk env path c = false := h c (by simp)
    simp [scanCalls, hc, ih (fun d hd => h d (by simp [hd]))]

theorem scan_split (env : ImportEnv) (path : String) :
    ∀ (pre : List (String × Nat)) (c : String × Nat) (post : List (String × Nat)),
      (∀ d ∈ pre, callOk env path d = false) → callOk env path c = true →
      scanCalls env path (pre ++ c :: post) = (pre ++ [c], some c) := by
  intro pre
  induction pre with
  | nil => intro c post _ hc; simp [scanCalls, hc]
  | cons a pre ih =>
    intro c post h hc
    have ha : callOk env path a = false := h a (by simp)
    simp [scanCalls, ha, ih c post (fun d hd => h d (by simp [hd])) hc]

theorem opLoop_spec (env : ImportEnv) (path : String) :
    ∀ (ids : List String) (st : TryState), st.succeeded = none →
      (opLoop env path st ids).invoked
          = st.invoked ++ (scanCalls env path (plannedCalls env ids)).1 ∧
      (opLoop env path st ids).succeeded
          = (scanCalls env path (plannedCalls env ids)).2 := by
  intro ids
  induction ids with
  | nil =>
    intro st hst
    simp [opLoop, plannedCalls, scanCalls, hst]
  | cons op rest ih =>
    intro st hst
    cases hres : env.resolve op with
    | error e =>
      have h := ih { st with lastErr := some e } hst
      simpa [opLoop, plannedCalls, hres] using h
    | ok u =>
      cases hc0 : env.call op 0 path with
      | ok v =>
        simp [opLoop, hres, attemptLoop, attemptIdxs, hc0, plannedCalls, scanCalls,
          callOk, hst]
      | error e0 =>
        cases hc1 : env.call op 1 path with
        | ok v =>
          simp [opLoop, hres, attemptLoop, attemptIdxs, hc0, hc1, plannedCalls,
            scanCalls, callOk, hst]
        | error e1 =>
          cases hc2 : env.call op 2 path with
          | ok v =>
            simp [opLoop, hres, attemptLoop, attemptIdxs, hc0, hc1, hc2, plannedCalls,
              scanCalls, callOk, hst]
          | error e2 =>
            have h := ih { st with
              invoked := ((st.invoked ++ [(op, 0)]) ++ [(op, 1)]) ++ [(op, 2)],
              lastErr := some e2 } hst
            simp [List.append_assoc, hst] at h
            simp [opLoop, hres, attemptLoop, attemptIdxs, hc0, hc1, hc2, plannedCalls,
              scanCalls, callOk, List.append_assoc, hst, h.1, h.2]

theorem opLoop_lastErr (env : ImportEnv) (path : String) :
    ∀ (ids : List String) (st : TryState), st.succeeded = none →
      (∀ c ∈ plannedCalls env ids, callOk env path c = false) →
      (opLoop env path st ids).lastErr
        = lastOr st.lastErr (allFailEvents env path ids) := by
  intro ids
  induction ids with
  | nil =>
    intro st hst _
    simp [opLoop, allFailEvents, lastOr]
  | cons op rest ih =>
    intro st hst hall
    cases hres : env.resolve op with
    | error e =>
      have hall2 : ∀ c ∈ plannedCalls env rest, callOk env path c = false := by
        intro c hc
        apply hall
        simp [plannedCalls, hres, hc]
      have h := ih { st with lastErr := some e } hst hall2
      simp [opLoop, hres, allFailEvents, lastOr, h]
    | ok u =>
      have h0 : callOk env path (op, 0) = false := by
        apply hall
        simp [plannedCalls, hres, attemptIdxs]
      have h1 : callOk env path (op, 1) = false := by
        apply hall
        simp [plannedCalls, hres, attemptIdxs]
      have h2 : callOk env path (op, 2) = false := by
        apply hall
        simp [plannedCalls, hres, attemptIdxs]
      cases hc0 : env.call op 0 path with
      | ok v => simp [callOk, hc0] at h0
      | error e0 =>
      cases hc1 : env.call op 1 path with
      | ok v => simp [callOk, hc1] at h1
      | error e1 =>
      cases hc2 : env.call op 2 path with
      | ok v => simp [callOk, hc2] at h2
      | error e2 =>
      have hall2 : ∀ c ∈ plannedCalls env rest, callOk env path c = false := by
        intro c hc
        apply hall
        simp [plannedCalls, hres, attemptIdxs]
        right
        right
        right
        exact hc
      have h := ih { st with
        invoked := ((st.invoked ++ [(op, 0)]) ++ [(op, 1)]) ++ [(op, 2)],
        lastErr := some e2 } hst hall2
      simp [opLoop, hres, attemptLoop, attemptIdxs, hc0, hc1, hc2, hst,
        allFailEvents, lastOr] at h ⊢
      exact h

/-! ## C3: candidate order, first success, last error -/

/-- C3: the import resolver tries the candidate invocations (operator
priority order, each with its call conventions in order) and returns at
the first invocation that completes without raising, never performing any
later invocation; when every planned invocation fails (for a non-archive
input, where no fallback phase exists), it raises carrying the most
recent error encountered. -/
theorem c3_import_resolver_order (env : ImportEnv) (aenv : ArchiveEnv) (path : String)
    (ov : Option String) :
    (∀ pre c post,
      plannedCalls env (opIds ov (extOf path)) = pre ++ c :: post →
      (∀ d ∈ pre, callOk env path d = false) →
      callOk env path c = true →
      (try_import_lxf env aenv path ov).outcome = .imported c.1 c.2 false ∧
      (try_import_lxf env aenv path ov).directState.invoked = pre ++ [c]) ∧
    (extOf path ≠ ".lxf" →
      (∀ d ∈ plannedCalls env (opIds ov (extOf path)), callOk env path d = false) →
      (try_import_lxf env aenv path ov).outcome
        = .importFailed (lastOr none (allFailEvents env path (opIds ov (extOf path))))) := by
  constructor
  · intro pre c post hsplit hpre hc
    have hs := opLoop_spec env path (opIds ov (extOf path)) ⟨[], none, none⟩ rfl
    rw [hsplit, scan_split env path pre c post hpre hc] at hs
    constructor
    · simp only [try_import_lxf]
      rw [hs.2]
    · simp only [try_import_lxf]
      rw [hs.2]
      simpa using hs.1
  · intro hext hall
    have hs := opLoop_spec env path (opIds ov (extOf path)) ⟨[], none, none⟩ rfl
    rw [scan_all_fail env path _ hall] at hs
    have hl := opLoop_lastErr env path (opIds ov (extOf path)) ⟨[], none, none⟩ rfl hall
    simp only [try_import_lxf]
    rw [hs.2]
    simp [hext]
    exact hl

/-- Witness for C3: with every candidate resolvable, the first two
invocations raising and the third completing, the resolver returns
success via the third invocation and performs exactly three
invocations — it never reaches the fourth candidate invocation. -/
theorem c3_import_resolver_order_witness :
    (try_import_lxf envImpThree aenvPayload "m.lxfml" none).outcome
        = .imported "import_scene.importldd" 2 false ∧
    (try_import_lxf envImpThree aenvPayload "m.lxfml" none).directState.invoked
        = [("import_scene.importldd", 0), ("import_scene.importldd", 1),
           ("import_scene.importldd", 2)] :=
  (c3_import_resolver_order envImpThree aenvPayload "m.lxfml" none).1
    [("import_scene.importldd", 0), ("import_scene.importldd", 1)]
    ("import_scene.importldd", 2)
    [("import_scene.lxfml", 0), ("import_scene.lxfml", 1), ("import_scene.lxfml", 2)]
    (by decide) (by decide) (by decide)

/-! ## C4: archive fallback and temporary-directory cleanup -/

/-- C4: for a `.lxf` input whose direct candidates all fail, the resolver
unpacks the archive into a temporary directory that is always removed
again (the `finally` clause) whatever the outcome; a propagated unpack
error or a missing payload raises; otherwise the first `.lxfml` payload
found in walk order is retried against the two non-archive candidates,
returning at the first success and raising with the most recent error —
across both phases — when everything fails. -/
theorem c4_archive_fallback_cleanup (env : ImportEnv) (aenv : ArchiveEnv) (path : String) (ov : Option String)
    (hext : extOf path = ".lxf")
    (hall : ∀ d ∈ plannedCalls env (opIds ov ".lxf"), callOk env path d = false) :
    ((try_import_lxf env aenv path ov).tempDirCreated = true ∧
     (try_import_lxf env aenv path ov).tempDirRemoved = true) ∧
    (∀ m, aenv.extract = .error m →
      (try_import_lxf env aenv path ov).outcome = .archiveError m) ∧
    (∀ listing, aenv.extract = .ok listing → findLxfml listing = none →
      (try_import_lxf env aenv path ov).outcome = .noLxfml) ∧
    (∀ listing payload, aenv.extract = .ok listing → findLxfml listing = some payload →
      ((∀ pre c post, plannedCalls env archiveOpIds = pre ++ c :: post →
          (∀ d ∈ pre, callOk env payload d = false) → callOk env payload c = true →
          (try_import_lxf env aenv path ov).outcome = .imported c.1 c.2 true) ∧
       ((∀ d ∈ plannedCalls env archiveOpIds, callOk env payload d = false) →
          (try_import_lxf env aenv path ov).outcome
            = .importFailed (lastOr
                (lastOr none (allFailEvents env path (opIds ov ".lxf")))
                (allFailEvents env payload archiveOpIds))))) := by
  obtain ⟨hs1, hs2⟩ := opLoop_spec env path (opIds ov ".lxf") ⟨[], none, none⟩ rfl
  rw [scan_all_fail env path _ hall] at hs1 hs2
  simp only [] at hs1 hs2
  have hl := opLoop_lastErr env path (opIds ov ".lxf") ⟨[], none, none⟩ rfl hall
  refine ⟨?_, ?_, ?_, ?_⟩
  · cases hx : aenv.extract with
    | error m =>
      constructor <;>
      · simp only [try_import_lxf, hext]
        rw [hs2]
        simp [hx]
    | ok listing =>
      cases hf : findLxfml listing with
      | none =>
        constructor <;>
        · simp only [try_import_lxf, hext]
          rw [hs2]
          simp [hx, hf]
      | some payload =>
        cases hsucc : (opLoop env payload
            (opLoop env path ⟨[], none, none⟩ (opIds ov ".lxf")) archiveOpIds).succeeded with
        | none =>
          constructor <;>
          · simp only [try_import_lxf, hext]
            rw [hs2]
            simp [hx, hf, hsucc]
        | some c =>
          constructor <;>
          · simp only [try_import_lxf, hext]
            rw [hs2]
            simp [hx, hf, hsucc]
  · intro m hm
    simp only [try_import_lxf, hext]
    rw [hs2]
    simp [hm]
  · intro listing hm hf
    simp only [try_import_lxf, hext]
    rw [hs2]
    simp [hm, hf]
  · intro listing payload hm hf
    constructor
    · intro pre c post hsplit2 hpre2 hc2
      obtain ⟨ha1, ha2⟩ := opLoop_spec env payload archiveOpIds
        (opLoop env path ⟨[], none, none⟩ (opIds ov ".lxf")) hs2
      rw [hsplit2, scan_split env payload pre c post hpre2 hc2] at ha1 ha2
      simp only [] at ha1 ha2
      simp only [try_import_lxf, hext]
      rw [hs2]
      simp [hm, hf, ha2]
    · intro hall2
      obtain ⟨ha1, ha2⟩ := opLoop_spec env payload archiveOpIds
        (opLoop env path ⟨[], none, none⟩ (opIds ov ".lxf")) hs2
      rw [scan_all_fail env payload _ hall2] at ha1 ha2
      simp only [] at ha1 ha2
      have hl2 := opLoop_lastErr env payload archiveOpIds
        (opLoop env path ⟨[], none, none⟩ (opIds ov ".lxf")) hs2 hall2
      simp only [try_import_lxf, hext]
      rw [hs2]
      simp [hm, hf, ha2, hl2, hl]

/-- Witness for C4: all direct candidates fail on a `.lxf` input, the
archive unpacks to a payload, the retry succeeds immediately, and the
temporary directory was created and removed. -/
theorem c4_archive_fallback_cleanup_witness :
    ((try_import_lxf envImpFallback aenvPayload "m.lxf" none).tempDirCreated = true ∧
     (try_import_lxf envImpFallback aenvPayload "m.lxf" none).tempDirRemoved = true) ∧
    (try_import_lxf envImpFallback aenvPayload "m.lxf" none).outcome
        = .imported "import_scene.importldd" 0 true := by
  have h := c4_archive_fallback_cleanup envImpFallback aenvPayload "m.lxf" none
    (by decide) (by decide)
  exact ⟨h.1,
    (h.2.2.2 [("/tmpu", ["p.lxfml"])] "/tmpu/p.lxfml" rfl (by decide)).1
      [] ("import_scene.importldd", 0)
      [("import_scene.importldd", 1), ("import_scene.importldd", 2),
       ("import_scene.lxfml", 0), ("import_scene.lxfml", 1), ("import_scene.lxfml", 2)]
      (by decide) (by decide) (by decide)⟩

/-! ## C9: orchestrator exit codes -/

theorem driverRun_noOutput_ok (e : StageEnv) (h : (driverRun e true).1 = 0) :
    (driverRun e false).1 = 0 := by
  obtain ⟨i, p, b, x⟩ := e
  revert h
  cases i <;> cases p <;> cases b <;> cases x <;> decide

theorem driverRun_noOutput_ok_of (e : StageEnv) (po : Bool) (h : (driverRun e po).1 = 0) :
    (driverRun e false).1 = 0 := by
  cases po
  · exact h
  · exact driverRun_noOutput_ok e h

/-- C9: the orchestrator exits 1 when no input files match — printing the
diagnostic without creating the output directory — and otherwise creates
the output directory and exits 0 exactly when every dispatched worker
invocation succeeds, and 2 exactly when at least one dispatched worker
invocation fails.  (Each driver run is deterministic in its stage
outcomes, so even the duplicate pass_output=None submissions of the dead
first loop cannot fail without the tallied submission for the same file
failing too: a no-output run exercises a subset of the fatal stages.) -/
theorem c9_orchestrator_exit_codes (fs : FileSystem) (args : OrchArgs)
    (senv : String → StageEnv) (files : List String) (run : OrchRun)
    (hf : find_files fs args.input args.pattern args.recursive = Except.ok files)
    (hr : orchestrate fs args senv = Except.ok run) :
    (files = [] → run = ⟨1, 0, 0, false, []⟩) ∧
    (files ≠ [] →
      run.outDirCreated = true ∧
      (run.exitCode = 0 ∨ run.exitCode = 2) ∧
      (run.exitCode = 0 ↔ ∀ s ∈ run.submitted, workerExit senv s = 0) ∧
      (run.exitCode = 2 ↔ ∃ s ∈ run.submitted, workerExit senv s ≠ 0)) := by
  constructor
  · intro hnil
    subst hnil
    simp only [orchestrate, hf] at hr
    simp at hr
    exact hr.symm
  · intro hne
    simp only [orchestrate, hf] at hr
    rw [if_neg (by simpa using hne)] at hr
    rw [Except.ok.injEq] at hr
    subst hr
    refine ⟨rfl, ?_, ?_, ?_⟩
    · by_cases hfc : ∀ x ∈ files, workerExit senv
        (⟨x, derive_output x args.output, some (!args.noExport)⟩ : Submission) = 0
      · left
        simp
        exact hfc
      · right
        simp
        push_neg at hfc
        exact hfc
    · constructor
      · intro h0
        have hfc : ∀ x ∈ files, workerExit senv
            (⟨x, derive_output x args.output, some (!args.noExport)⟩ : Submission) = 0 := by
          by_contra hc
          simp at h0
          exact hc h0
        intro s hs
        rcases List.mem_append.mp hs with hs1 | hs2
        · obtain ⟨src, hsrc, rfl⟩ := List.mem_map.mp hs1
          have h2 := hfc src hsrc
          unfold workerExit at h2 ⊢
          simp only [truthy] at h2 ⊢
          exact driverRun_noOutput_ok_of _ _ h2
        · obtain ⟨src, hsrc, rfl⟩ := List.mem_map.mp hs2
          exact hfc src hsrc
      · intro hall
        have hfc : ∀ x ∈ files, workerExit senv
            (⟨x, derive_output x args.output, some (!args.noExport)⟩ : Submission) = 0 :=
          fun x hx => hall _ (List.mem_append.mpr (Or.inr (List.mem_map.mpr ⟨x, hx, rfl⟩)))
        simp
        exact hfc
    · constructor
      · intro h2
        simp at h2
        obtain ⟨x, hx, hxne⟩ := h2
        exact ⟨⟨x, derive_output x args.output, some (!args.noExport)⟩,
          List.mem_append.mpr (Or.inr (List.mem_map.mpr ⟨x, hx, rfl⟩)), hxne⟩
      · rintro ⟨s, hs, hsne⟩
        have hex : ∃ x ∈ files, workerExit senv
            (⟨x, derive_output x args.output, some (!args.noExport)⟩ : Submission) ≠ 0 := by
          rcases List.mem_append.mp hs with hs1 | hs2
          · obtain ⟨src, hsrc, rfl⟩ := List.mem_map.mp hs1
            refine ⟨src, hsrc, ?_⟩
            intro h0
            apply hsne
            unfold workerExit at h0 ⊢
            simp only [truthy] at h0 ⊢
            exact driverRun_noOutput_ok_of _ _ h0
          · obtain ⟨src, hsrc, rfl⟩ := List.mem_map.mp hs2
            exact ⟨src, hsrc, hsne⟩
        obtain ⟨x, hx, hxne⟩ := hex
        simp
        exact ⟨x, hx, hxne⟩

/-- Witness for C9: a run over one matching file whose stages all succeed
exits 0. -/
theorem c9_orchestrator_exit_codes_witness :
    orchestrate fsSingle argsSingle senvAllOk = Except.ok runSingle ∧
    runSingle.exitCode = 0 := by
  have h := c9_orchestrator_exit_codes fsSingle argsSingle senvAllOk ["/in/a.lxf"]
    runSingle (by decide) (by decide)
  exact ⟨by decide, (h.2 (by decide)).2.2.1.mpr (by decide)⟩

end LUBatch
